import Mathlib

/-!
Verification development for the senfix-webapp FIX client engine.

The definitions below are a shallow embedding of the session layer of
`src/fix_client.py` (class `FixClient`) and of the order-send path of
`src/quickfix_client.py`.  Pure logging calls of the Python code are not
modelled; every state mutation and every outbound transmission is
modelled as an explicit `Event`.  Machine integers of the source are
Python arbitrary-precision integers, so `Nat` is used directly.
-/

set_option maxRecDepth 4000

namespace Senfix

/-- An inbound FIX message as seen by `receive_messages` in
`src/fix_client.py`: the fields the session logic reads via
`message.get(tag)`.  `msgType` is tag 35, `seqNum` tag 34 (absent tags
yield `none`, the code substitutes 0), `possDup` is `get(43) == b'Y'`,
`beginSeqNo`/`endSeqNo` are tags 7/16 of a ResendRequest (the code
parses them with `int`, so `endSeqNo = 0` models the raw string `'0'`),
`newSeqNo` is tag 36 and `gapFillFlag` is `get(123) == b'Y'` of a
SequenceReset. -/
structure InMsg where
  msgType : String
  seqNum : Option Nat := none
  possDup : Bool := false
  beginSeqNo : Nat := 0
  endSeqNo : Nat := 0
  newSeqNo : Nat := 0
  gapFillFlag : Bool := false
deriving DecidableEq

/-- The mutable session state of `FixClient`: `seq` is `self.seq`
(outgoing, last assigned), `expected_seq` is `self.expected_seq`
(next expected inbound), `running` is `self.running`, and
`sent_messages` is the `self.sent_messages` dict mapping a sequence
number to the stored application message bytes. -/
structure SessionState where
  seq : Nat
  expected_seq : Nat
  running : Bool
  sent_messages : List (Nat × String)
deriving DecidableEq

/-- Observable effects of the session code, in program order.
`save` is `save_session_state()` persisting `(outgoing_seq, incoming_seq)`;
`sendGapFill b n` is the transmission of a SequenceReset-GapFill frame
`35=4, 34=b, 123=Y, 36=n, 43=Y` (built by `send_gap_fill`);
`sendHeartbeat s` the transmission of `35=0, 34=s`;
`sendBytes s` the transmission of the encoded application message with
`34=s`; `storePut s` the insertion `sent_messages[s] = message`;
`resendStored s bytes` the retransmission of a stored message (emitted
only by the spec-described resend walk, never by the code);
`sendReject r` the transmission of a `35=3` Reject (likewise never
emitted by the code); `disconnect` is `self.disconnect()`. -/
inductive Event where
  | save (outSeq inSeq : Nat)
  | sendGapFill (beginSeq newSeq : Nat)
  | sendHeartbeat (seq34 : Nat)
  | sendBytes (seq34 : Nat)
  | storePut (seq : Nat)
  | resendStored (seq : Nat) (bytes : String)
  | sendReject (refSeq : Nat)
  | disconnect
deriving DecidableEq

/-- Whether an event is the transmission of a Reject (35=3). -/
def Event.isReject : Event → Bool
  | Event.sendReject _ => true
  | _ => false

/-- Whether an event retransmits stored application bytes. -/
def Event.isResendStored : Event → Bool
  | Event.resendStored _ _ => true
  | _ => false

/-- Whether an event is a `sent_messages` store update. -/
def Event.isStorePut : Event → Bool
  | Event.storePut _ => true
  | _ => false

/-- Whether an event is a transport write of an application message. -/
def Event.isSendBytes : Event → Bool
  | Event.sendBytes _ => true
  | _ => false

/-- Whether an event persists the session counters. -/
def Event.isSave : Event → Bool
  | Event.save _ _ => true
  | _ => false

/-- `increment_seq` (src/fix_client.py:105-108): `self.seq += 1`,
`self.save_session_state()`, returns the new value. -/
def increment_seq (st : SessionState) : SessionState × Nat × List Event :=
  let st1 : SessionState := { st with seq := st.seq + 1 }
  (st1, st1.seq, [Event.save st1.seq st1.expected_seq])

/-- Message types the code treats as admin for storage purposes
(src/fix_client.py:162): `['0', '1', '2', '4', '5']`. -/
def adminMsgTypes : List String := ["0", "1", "2", "4", "5"]

/-- `construct_message` (src/fix_client.py:151-163): assigns
`current_seq = increment_seq()`, appends the header fields, and stores
the message in `sent_messages` when the type is not admin.  Header
field appending does not affect the session state and is not modelled
beyond the assigned sequence number. -/
def construct_message (st : SessionState) (msg_type : String) (msgBytes : String) :
    SessionState × Nat × List Event :=
  let (st1, current_seq, evs) := increment_seq st
  if msg_type ∉ adminMsgTypes then
    ({ st1 with sent_messages := st1.sent_messages ++ [(current_seq, msgBytes)] },
     current_seq, evs ++ [Event.storePut current_seq])
  else
    (st1, current_seq, evs)

/-- The common outbound application-send path (`send_raw_fix`,
`send_custom_message`, `send_orders_from_file` all do this):
`construct_message(msg_type, fix_message)`, then `encode()` and
`sock.sendall(encoded_msg)`.  `transport_ok = false` models `sendall`
raising; the surrounding `try`/`except` only logs, so the state
keeps the already advanced and persisted sequence number. -/
def send_app_message (st : SessionState) (msg_type : String) (msgBytes : String)
    (transport_ok : Bool) : SessionState × List Event :=
  let (st1, current_seq, evs) := construct_message st msg_type msgBytes
  if transport_ok then (st1, evs ++ [Event.sendBytes current_seq])
  else (st1, evs)

/-- `send_gap_fill` (src/fix_client.py:459-475): builds and transmits
`35=4, 34=begin_seq, 123=Y, 36=new_seq, 43=Y`.  It does not call
`increment_seq` and leaves the state untouched. -/
def send_gap_fill (st : SessionState) (begin_seq new_seq : Nat) :
    SessionState × List Event :=
  (st, [Event.sendGapFill begin_seq new_seq])

/-- The effective end of a served resend range as `handle_resend_request`
computes it (src/fix_client.py:450-456):
`end_seq = 999999 if end_seq_raw == '0' else int(end_seq_raw)` and
`actual_end_seq = min(end_seq, self.seq)`. -/
def resend_actual_end (endSeqNo seq : Nat) : Nat :=
  min (if endSeqNo = 0 then 999999 else endSeqNo) seq

/-- `handle_resend_request` (src/fix_client.py:448-457): reads tags 7
and 16, computes the capped end and sends a single gap fill for the
entire range: `send_gap_fill(begin_seq, actual_end_seq + 1)`. -/
def handle_resend_request (st : SessionState) (m : InMsg) :
    SessionState × List Event :=
  let begin_seq := m.beginSeqNo
  let actual_end_seq := resend_actual_end m.endSeqNo st.seq
  send_gap_fill st begin_seq (actual_end_seq + 1)

/-- `handle_sequence_reset` (src/fix_client.py:477-487): reads tag 36
and tag 123; both the GapFill and the plain Reset branch only differ in
the log line, and `self.expected_seq = new_seq` followed by
`save_session_state()` runs unconditionally. -/
def handle_sequence_reset (st : SessionState) (m : InMsg) :
    SessionState × List Event :=
  let st1 : SessionState := { st with expected_seq := m.newSeqNo }
  (st1, [Event.save st1.seq st1.expected_seq])

/-- `send_heartbeat` (src/fix_client.py:432-446): builds `35=0` with
`34=increment_seq()` and transmits it. -/
def send_heartbeat (st : SessionState) : SessionState × List Event :=
  let (st1, s, evs) := increment_seq st
  (st1, evs ++ [Event.sendHeartbeat s])

/-- The per-message body of the `receive_messages` loop
(src/fix_client.py:371-423): sequence-number handling first (skipped
entirely for Heartbeats; ResendRequests update `expected_seq` from tag
34 regardless of PossDup and persist; other messages update it only
when `43 ≠ Y`, without persisting), then dispatch by message type:
`'0'` replies with a Heartbeat, `'2'` runs `handle_resend_request`,
`'4'` runs `handle_sequence_reset`, `'5'` disconnects; Logon,
ExecutionReport and all other types only log or invoke callbacks. -/
def process_message (st : SessionState) (m : InMsg) : SessionState × List Event :=
  let seqStep : SessionState × List Event :=
    if m.msgType = "0" then (st, [])
    else
      let msg_seq := m.seqNum.getD 0
      if m.msgType = "2" then
        let st' : SessionState := { st with expected_seq := msg_seq + 1 }
        (st', [Event.save st'.seq st'.expected_seq])
      else if ¬ m.possDup then
        ({ st with expected_seq := msg_seq + 1 }, [])
      else
        (st, [])
  let st1 := seqStep.1
  let evs1 := seqStep.2
  if m.msgType = "0" then
    let (st2, evs2) := send_heartbeat st1
    (st2, evs1 ++ evs2)
  else if m.msgType = "2" then
    let (st2, evs2) := handle_resend_request st1 m
    (st2, evs1 ++ evs2)
  else if m.msgType = "4" then
    let (st2, evs2) := handle_sequence_reset st1 m
    (st2, evs1 ++ evs2)
  else if m.msgType = "5" then
    ({ st1 with running := false }, evs1 ++ [Event.disconnect])
  else
    (st1, evs1)

/-- First stored application sequence number in `lo..hi`, if any
(helper for the spec-described resend walk). -/
def firstStoredFrom (store : List (Nat × String)) (lo hi : Nat) : Option Nat :=
  (List.range' lo (hi + 1 - lo)).find? (fun s => (store.lookup s).isSome)

/-- Fuel-indexed worker for `spec_resend_walk`; the fuel only bounds the
recursion depth and `e + 2` steps always suffice because each step moves
`b` strictly forward. -/
def spec_resend_walk_aux (store : List (Nat × String)) :
    Nat → Nat → Nat → List Event
  | 0, _, _ => []
  | fuel + 1, b, e =>
    if e + 1 ≤ b then []
    else
      match store.lookup b with
      | some bytes =>
          Event.resendStored b bytes :: spec_resend_walk_aux store fuel (b + 1) e
      | none =>
          let nextApp := (firstStoredFrom store (b + 1) e).getD (e + 1)
          Event.sendGapFill b nextApp :: spec_resend_walk_aux store fuel nextApp e

/-- Modelled from the spec: the resend algorithm of §4.3 that claim C1
describes; this interleaving responder is absent from the source
(`handle_resend_request` sends a single gap fill instead).  Walk
`seq = b..e` in order; a stored application message is retransmitted
with its stored bytes; a run of admin or absent numbers becomes one
gap fill whose `36` is the next application sequence number after the
run (or `e + 1` when the range ends on a non-app run). -/
def spec_resend_walk (store : List (Nat × String)) (b e : Nat) : List Event :=
  spec_resend_walk_aux store (e + 2) b e

/-- Modelled from the spec: the effective resend end claim C6 states,
`min(EndSeqNo-or-infinity, next_out − 1)` with `EndSeqNo = 0` meaning
infinity; since `self.seq` is the last assigned outbound number,
`next_out − 1 = seq`. -/
def claimed_actual_end (endSeqNo seq : Nat) : Nat :=
  if endSeqNo = 0 then seq else min endSeqNo seq

/-! ## The quickfix_client order-send path (src/quickfix_client.py) -/

/-- Result of `fix.Session.lookupSession(self.session_id)` as observed by
`send_new_order_single`: the call may raise, return no session, or
return a session object whose only consulted property is
`isLoggedOn()`. -/
inductive LookupResult where
  | raised
  | found (sessionObj : Option Bool)
deriving DecidableEq

/-- The client-side state `send_new_order_single` reads and writes:
`self.session_id`, `self.logged_on`, `self.running` and the ClOrdID
counter `self.order_counter`. -/
structure QfState where
  session_id : Option Nat
  logged_on : Bool
  running : Bool
  order_counter : Nat
deriving DecidableEq

/-- `generate_clordid` (src/quickfix_client.py): increments
`self.order_counter` and derives a fresh ClOrdID from it (the timestamp
part is irrelevant to the claims and omitted). -/
def generate_clordid (st : QfState) : QfState × String :=
  let st' : QfState := { st with order_counter := st.order_counter + 1 }
  (st', toString st'.order_counter)

/-- `send_new_order_single` (src/quickfix_client.py:465-554), reduced to
its control flow and state effects: no `session_id` fails immediately;
the message is built (consuming a ClOrdID); `not (logged_on and
running)` fails; a raising registry lookup fails; a lookup that finds
no session clears `logged_on` and `session_id` and fails; otherwise the
`isLoggedOn()` discrepancy is only logged and `sendToTarget`'s boolean
decides success.  Every failure path returns `(False, None)` from
inside the enclosing `try`/`except`. -/
def send_new_order_single (st : QfState) (lookup : Nat → LookupResult)
    (sendToTarget_ok : Bool) : (Bool × Option String) × QfState :=
  match st.session_id with
  | none => ((false, none), st)
  | some sid =>
    let (st1, clordid) := generate_clordid st
    if ¬ (st1.logged_on ∧ st1.running) then ((false, none), st1)
    else
      match lookup sid with
      | LookupResult.raised => ((false, none), st1)
      | LookupResult.found none =>
          ((false, none), { st1 with logged_on := false, session_id := none })
      | LookupResult.found (some _) =>
          if sendToTarget_ok then ((true, some clordid), st1)
          else ((false, none), st1)

/-- A registry in which every lookup finds no session: the stale-handle
scenario of claim C7. -/
def staleRegistry : Nat → LookupResult := fun _ => LookupResult.found none

/-! ## Wire codec (C8, C9)

The encoder lives in the external `simplefix` library, which is not part
of src/; it is modelled from the spec (§4.1) below.  The byte-level
manipulations of `send_custom_message` and `receive_messages` are
embedded from src/fix_client.py directly.  Bytes are modelled as `Char`
(all frame content is ASCII). -/

/-- The SOH delimiter, ASCII 0x01. -/
def SOH : Char := Char.ofNat 1

/-- Decimal digit character for `d < 10`. -/
def digitChar (d : Nat) : Char := Char.ofNat (48 + d)

/-- Fuel-indexed decimal rendering of a natural number. -/
def natToCharsAux : Nat → Nat → List Char
  | 0, _ => []
  | fuel + 1, n =>
    if n < 10 then [digitChar n]
    else natToCharsAux fuel (n / 10) ++ [digitChar (n % 10)]

/-- Decimal rendering of a natural number, most significant digit
first (the model's `str(n)`). -/
def natToChars (n : Nat) : List Char := natToCharsAux (n + 1) n

/-- Decimal value of a digit string (the model's `int(s)`). -/
def natVal (ds : List Char) : Nat :=
  ds.foldl (fun a c => a * 10 + (c.toNat - 48)) 0

/-- One rendered FIX field `tag=value<SOH>`. -/
def renderField (p : Nat × String) : List Char :=
  natToChars p.1 ++ '=' :: (p.2.toList ++ [SOH])

/-- Concatenated rendering of a field list. -/
def renderPairs (ps : List (Nat × String)) : List Char :=
  (ps.map renderField).flatten

/-- Byte-sum checksum modulo 256 (spec §4.1). -/
def checksum (s : List Char) : Nat := (s.map Char.toNat).sum % 256

/-- Three-digit zero-padded checksum rendering. -/
def pad3 (n : Nat) : List Char :=
  (if n < 10 then ['0', '0'] else if n < 100 then ['0'] else []) ++ natToChars n

/-- Modelled from the spec: the body of a cooked frame as the external
simplefix library's `FixMessage.encode()` renders it (spec §4.1): the
MsgType field followed by all pairs except tags 8, 9, 10 and 35 in
order.  A tag-9 pair appended by a caller is therefore ignored by
encoding. -/
def encodeBody (msgType : String) (pairs : List (Nat × String)) : List Char :=
  renderField (35, msgType) ++ renderPairs (pairs.filter
    (fun p => ¬ (p.1 = 8 ∨ p.1 = 9 ∨ p.1 = 10 ∨ p.1 = 35)))

/-- Modelled from the spec: the cooked `FixMessage.encode()` of the
external simplefix library (spec §4.1): `8=<begin_string>` and
`9=<body byte count>` are prepended to the body and the computed
`10=<ccc>` appended. -/
def encode (beginString msgType : String) (pairs : List (Nat × String)) :
    List Char :=
  let body := encodeBody msgType pairs
  let head := '8' :: '=' :: (beginString.toList ++ SOH ::
    '9' :: '=' :: (natToChars body.length ++ [SOH]))
  head ++ body ++ '1' :: '0' :: '=' :: (pad3 (checksum (head ++ body)) ++ [SOH])

/-- First index at which `pat` occurs in `s` (the model's
`bytes.find`); `none` when it does not occur. -/
def findSub (pat : List Char) : List Char → Option Nat
  | [] => if pat.isPrefixOf ([] : List Char) then some 0 else none
  | c :: rest =>
    if pat.isPrefixOf (c :: rest) then some 0
    else (findSub pat rest).map (· + 1)

/-- The byte count claim C8 describes: from the byte after BodyLength's
trailing SOH up to but not including the '1' character of tag 10 (the
tag-10 field located, as the source does, by the first occurrence of
`<SOH>10=`). -/
def bodySpanLength (s : List Char) : Option Nat := do
  let ninePos ← findSub ['9', '='] s
  let sohOff ← findSub [SOH] (s.drop ninePos)
  let bodyStart := ninePos + sohOff + 1
  let checksumPos ← findSub [SOH, '1', '0', '='] s
  pure (checksumPos + 1 - bodyStart)

/-- The declared BodyLength of a frame: the digits between the first
`9=` and the following SOH, parsed as a decimal number. -/
def declaredBodyLength (s : List Char) : Option Nat := do
  let ninePos ← findSub ['9', '='] s
  pure (natVal ((s.drop (ninePos + 2)).takeWhile (fun c => c ≠ SOH)))

/-- The BodyLength-recompute path of `send_custom_message`
(src/fix_client.py:209-224): initial `encode()`, byte-search of
`<SOH>10=` and of the SOH after `9=`, recomputation of the length,
`remove(9)` followed by appending the recomputed tag 9, and a final
`encode()` whose result is transmitted.  The byte searches always
succeed on `encode` output, so the `-1` failure value of Python's
`find` does not arise. -/
def send_custom_message_encoded (beginString msgType : String)
    (pairs : List (Nat × String)) : List Char :=
  let temp_encoded := encode beginString msgType pairs
  let checksum_pos := (findSub [SOH, '1', '0', '='] temp_encoded).getD 0
  let body_start_pos :=
    ((findSub ['9', '='] temp_encoded).bind (fun p =>
      (findSub [SOH] (temp_encoded.drop p)).map (· + p))).getD 0 + 1
  let actual_body_length := checksum_pos - body_start_pos
  encode beginString msgType
    ((pairs.filter (fun p => ¬ p.1 = 9)) ++
      [(9, String.mk (natToChars actual_body_length))])

/-- The wire-side preprocessing of `receive_messages`
(src/fix_client.py:367): `response = response.replace(b'|', b'\x01')`
applied to every buffer read from the socket before parsing. -/
def receive_replace (response : List Char) : List Char :=
  response.map (fun c => if c = '|' then SOH else c)

/-- The raw-message API boundary (`send_raw_fix`,
src/fix_client.py:165-177): the caller-supplied string is split on
`'|'` into `tag=value` pairs. -/
def send_raw_fix_pairs (raw : String) : List String := raw.splitOn "|"

/-! ## Codec lemmas

Facts about decimal rendering and byte search used to settle C8. -/

theorem natToCharsAux_digits (fuel n : Nat) :
    ∀ c ∈ natToCharsAux fuel n, ∃ d, d < 10 ∧ c = digitChar d := by
  induction fuel generalizing n with
  | zero => intro c hc; simp [natToCharsAux] at hc
  | succ fuel ih =>
    intro c hc
    by_cases h : n < 10
    · simp [natToCharsAux, h] at hc
      exact ⟨n, h, hc⟩
    · simp [natToCharsAux, h] at hc
      rcases hc with hc | hc
      · exact ih (n / 10) c hc
      · exact ⟨n % 10, Nat.mod_lt _ (by omega), hc⟩

theorem natToChars_digits (n : Nat) :
    ∀ c ∈ natToChars n, ∃ d, d < 10 ∧ c = digitChar d :=
  natToCharsAux_digits (n + 1) n

theorem soh_not_digit : ∀ d, d < 10 → digitChar d ≠ SOH := by decide

theorem eq_not_digit : ∀ d, d < 10 → digitChar d ≠ '=' := by decide

theorem soh_not_mem_natToChars (n : Nat) : SOH ∉ natToChars n := by
  intro h
  rcases natToChars_digits n SOH h with ⟨d, hd, hc⟩
  exact soh_not_digit d hd hc.symm

theorem natVal_append_digit (xs : List Char) (c : Char) :
    natVal (xs ++ [c]) = natVal xs * 10 + (c.toNat - 48) := by
  simp [natVal, List.foldl_append]

theorem digitChar_toNat : ∀ d, d < 10 → (digitChar d).toNat = 48 + d := by decide

theorem natVal_natToCharsAux (fuel n : Nat) (h : n < fuel) :
    natVal (natToCharsAux fuel n) = n := by
  induction fuel generalizing n with
  | zero => omega
  | succ fuel ih =>
    by_cases hn : n < 10
    · simp [natToCharsAux, hn, natVal, digitChar_toNat n hn]
    · rw [natToCharsAux, if_neg hn, natVal_append_digit,
        ih (n / 10) (by omega), digitChar_toNat (n % 10) (Nat.mod_lt _ (by omega))]
      omega

theorem natVal_natToChars (n : Nat) : natVal (natToChars n) = n :=
  natVal_natToCharsAux (n + 1) n (Nat.lt_succ_self n)

theorem natToChars_ne_nil (n : Nat) : natToChars n ≠ [] := by
  by_cases h : n < 10 <;> simp [natToChars, natToCharsAux, h]

theorem findSub_of_prefixTrue (pat s : List Char) (h : pat.isPrefixOf s = true) :
    findSub pat s = some 0 := by
  cases s <;> simp [findSub, h]

theorem findSub_cons_of_not (pat : List Char) (c : Char) (s : List Char)
    (h : ¬ pat.isPrefixOf (c :: s) = true) :
    findSub pat (c :: s) = (findSub pat s).map (· + 1) := by
  simp [findSub, h]

theorem findSub_append_chunk (pat chunk rest : List Char)
    (h : ∀ i, i < chunk.length → ¬ pat.isPrefixOf (chunk.drop i ++ rest) = true) :
    findSub pat (chunk ++ rest) = (findSub pat rest).map (· + chunk.length) := by
  induction chunk with
  | nil =>
    simp
  | cons c ch ih =>
    rw [List.cons_append, findSub_cons_of_not pat c (ch ++ rest) (h 0 (by simp)),
      ih (fun i hi => h (i + 1) (by simpa using hi))]
    cases findSub pat rest <;> simp
    omega

theorem findSub_skip_soh_chunk (pat' chunk rest : List Char) (h : SOH ∉ chunk) :
    findSub (SOH :: pat') (chunk ++ rest)
      = (findSub (SOH :: pat') rest).map (· + chunk.length) := by
  apply findSub_append_chunk
  intro i hi hpre
  rw [List.drop_eq_getElem_cons hi, List.cons_append, List.isPrefixOf_cons₂] at hpre
  simp at hpre
  exact h (hpre.1 ▸ List.getElem_mem hi)

theorem findSub_soh_exact (chunk rest : List Char) (h : SOH ∉ chunk) :
    findSub [SOH] (chunk ++ SOH :: rest) = some chunk.length := by
  rw [findSub_skip_soh_chunk [] chunk (SOH :: rest) h,
    findSub_of_prefixTrue _ _ (by simp [List.isPrefixOf_cons₂])]
  simp

theorem findSub_nine (bs tail : List Char) (h : '=' ∉ bs) :
    findSub ['9', '='] (bs ++ SOH :: '9' :: '=' :: tail) = some (bs.length + 1) := by
  induction bs with
  | nil =>
    rw [List.nil_append,
      findSub_cons_of_not _ _ _ (by simp [List.isPrefixOf_cons₂, SOH]),
      findSub_of_prefixTrue _ _ (by simp [List.isPrefixOf_cons₂])]
    rfl
  | cons c bs' ih =>
    have hmem : '=' ∉ bs' := fun hb => h (List.mem_cons_of_mem _ hb)
    have hnp : ¬ (['9', '='].isPrefixOf
        (c :: (bs' ++ SOH :: '9' :: '=' :: tail))) = true := by
      intro hp
      rw [List.isPrefixOf_cons₂, Bool.and_eq_true] at hp
      obtain ⟨h9, hrest⟩ := hp
      cases bs' with
      | nil =>
        rw [List.nil_append, List.isPrefixOf_cons₂, Bool.and_eq_true] at hrest
        exact absurd hrest.1 (by decide)
      | cons d bs'' =>
        rw [List.cons_append, List.isPrefixOf_cons₂, Bool.and_eq_true] at hrest
        have hd : '=' = d := by simpa using hrest.1
        exact h (List.mem_cons_of_mem _ (hd ▸ List.mem_cons_self _ _))
    rw [List.cons_append, findSub_cons_of_not _ _ _ hnp, ih hmem]
    simp

theorem renderField_append (p : Nat × String) (Z : List Char) :
    renderField p ++ Z = (natToChars p.1 ++ '=' :: p.2.toList) ++ SOH :: Z := by
  simp [renderField]

theorem renderField_chunk_soh_free (p : Nat × String) (h : SOH ∉ p.2.toList) :
    SOH ∉ natToChars p.1 ++ '=' :: p.2.toList := by
  intro hm
  rcases List.mem_append.1 hm with hm | hm
  · exact soh_not_mem_natToChars _ hm
  · rcases List.mem_cons.1 hm with hm | hm
    · exact absurd hm (by decide)
    · exact h hm

theorem not_prefix10_renderTag (t : Nat) (ht : t ≠ 10) (z : List Char) :
    ¬ (['1', '0', '='].isPrefixOf (natToChars t ++ '=' :: z)) = true := by
  intro hp
  rcases hL : natToChars t with _ | ⟨c1, L1⟩
  · exact natToChars_ne_nil t hL
  · rw [hL] at hp
    rcases L1 with _ | ⟨c2, L2⟩
    · rw [List.cons_append, List.nil_append, List.isPrefixOf_cons₂,
        Bool.and_eq_true, List.isPrefixOf_cons₂, Bool.and_eq_true] at hp
      exact absurd hp.2.1 (by decide)
    · rcases L2 with _ | ⟨c3, L3⟩
      · rw [List.cons_append, List.cons_append, List.nil_append,
          List.isPrefixOf_cons₂, Bool.and_eq_true,
          List.isPrefixOf_cons₂, Bool.and_eq_true,
          List.isPrefixOf_cons₂, Bool.and_eq_true] at hp
        have h1 : '1' = c1 := by simpa using hp.1
        have h2 : '0' = c2 := by simpa using hp.2.1
        apply ht
        have hv := natVal_natToChars t
        rw [hL, ← h1, ← h2] at hv
        rw [← hv]
        decide
      · rw [List.cons_append, List.cons_append, List.cons_append,
          List.isPrefixOf_cons₂, Bool.and_eq_true,
          List.isPrefixOf_cons₂, Bool.and_eq_true,
          List.isPrefixOf_cons₂, Bool.and_eq_true] at hp
        have h3 : '=' = c3 := by simpa using hp.2.2.1
        have hc3 : c3 ∈ natToChars t := by rw [hL]; simp
        rcases natToChars_digits t c3 hc3 with ⟨d, hd, rfl⟩
        exact eq_not_digit d hd h3.symm

theorem renderPairs_cons (p : Nat × String) (fs : List (Nat × String)) :
    renderPairs (p :: fs) = renderField p ++ renderPairs fs := by
  simp [renderPairs]

theorem renderPairs_length_pos (p : Nat × String) (fs : List (Nat × String)) :
    0 < (renderPairs (p :: fs)).length := by
  rw [renderPairs_cons]
  simp [renderField]

theorem findSub_pat10_fields (fs : List (Nat × String)) (rest : List Char)
    (hne : fs ≠ [])
    (hv : ∀ p ∈ fs, SOH ∉ p.2.toList) (ht : ∀ p ∈ fs, p.1 ≠ 10) :
    findSub [SOH, '1', '0', '='] (renderPairs fs ++ '1' :: '0' :: '=' :: rest)
      = some ((renderPairs fs).length - 1) := by
  induction fs with
  | nil => exact absurd rfl hne
  | cons p fs ih =>
    have hchunk := renderField_chunk_soh_free p (hv p (List.mem_cons_self _ _))
    cases fs with
    | nil =>
      rw [renderPairs_cons, renderPairs]
      simp only [List.map_nil, List.flatten_nil, List.append_nil]
      rw [renderField_append,
        findSub_skip_soh_chunk _ _ _ hchunk,
        findSub_of_prefixTrue _ _ (by simp [List.isPrefixOf_cons₂])]
      simp [renderField]
    | cons q fs' =>
      rw [renderPairs_cons, List.append_assoc, renderField_append,
        findSub_skip_soh_chunk _ _ _ hchunk]
      have hnp : ¬ ((SOH :: ['1', '0', '=']).isPrefixOf
          (SOH :: (renderPairs (q :: fs') ++ '1' :: '0' :: '=' :: rest))) = true := by
        intro hp
        rw [List.isPrefixOf_cons₂, Bool.and_eq_true] at hp
        have hrest := hp.2
        rw [renderPairs_cons, renderField] at hrest
        simp only [List.append_assoc, List.cons_append, List.nil_append] at hrest
        exact not_prefix10_renderTag q.1 (ht q (List.mem_cons_of_mem _
          (List.mem_cons_self _ _))) _ hrest
      rw [findSub_cons_of_not _ _ _ hnp,
        ih (by simp) (fun r hr => hv r (List.mem_cons_of_mem _ hr))
          (fun r hr => ht r (List.mem_cons_of_mem _ hr))]
      have hpos := renderPairs_length_pos q fs'
      simp [renderPairs_cons, renderField]
      omega

theorem takeWhile_until_soh (ds rest : List Char) (h : SOH ∉ ds) :
    (ds ++ SOH :: rest).takeWhile (fun c => c ≠ SOH) = ds := by
  induction ds with
  | nil => simp [List.takeWhile_cons]
  | cons c ds' ih =>
    have hc : c ≠ SOH := fun hh => h (hh ▸ List.mem_cons_self _ _)
    have ih' := ih (fun hm => h (List.mem_cons_of_mem _ hm))
    rw [List.cons_append, List.takeWhile_cons]
    simp only [hc, decide_not, decide_eq_true_eq]
    simp only [decide_not] at ih'
    simp [hc, ih']

/-- The declared and byte-searched BodyLength of any frame of the shape
`8=<bsL>|9=<n>|<fields>|10=...` where `n` is the rendered field-list
length: both equal that length.  This is the core of claim C8, stated
over the frame shape so it applies to every emitted frame. -/
theorem master_frame (bsL : List Char) (fs : List (Nat × String)) (W : List Char)
    (h1 : SOH ∉ bsL) (h2 : '=' ∉ bsL) (hne : fs ≠ [])
    (hv : ∀ p ∈ fs, SOH ∉ p.2.toList) (ht : ∀ p ∈ fs, p.1 ≠ 10) :
    declaredBodyLength ('8' :: '=' :: (bsL ++ SOH :: '9' :: '=' ::
        (natToChars (renderPairs fs).length ++ SOH ::
          (renderPairs fs ++ '1' :: '0' :: '=' :: W))))
      = some (renderPairs fs).length
    ∧ bodySpanLength ('8' :: '=' :: (bsL ++ SOH :: '9' :: '=' ::
        (natToChars (renderPairs fs).length ++ SOH ::
          (renderPairs fs ++ '1' :: '0' :: '=' :: W))))
      = some (renderPairs fs).length := by
  obtain ⟨p, fs', rfl⟩ : ∃ p fs', fs = p :: fs' := by
    cases fs with
    | nil => exact absurd rfl hne
    | cons p fs' => exact ⟨p, fs', rfl⟩
  set body := renderPairs (p :: fs') with hbody
  set digits := natToChars body.length with hdigits
  have hbodypos : 0 < body.length := renderPairs_length_pos p fs'
  have hdig : SOH ∉ digits := soh_not_mem_natToChars _
  set out := '8' :: '=' :: (bsL ++ SOH :: '9' :: '=' ::
    (digits ++ SOH :: (body ++ '1' :: '0' :: '=' :: W))) with hout
  have hninePos : findSub ['9', '='] out = some (bsL.length + 3) := by
    rw [hout,
      findSub_cons_of_not _ _ _ (by
        intro hp
        rw [List.isPrefixOf_cons₂, Bool.and_eq_true] at hp
        exact absurd hp.1 (by decide)),
      findSub_cons_of_not _ _ _ (by
        intro hp
        rw [List.isPrefixOf_cons₂, Bool.and_eq_true] at hp
        exact absurd hp.1 (by decide)),
      findSub_nine bsL _ h2]
    simp
  have hdrop3 : out.drop (bsL.length + 3)
      = '9' :: '=' :: (digits ++ SOH :: (body ++ '1' :: '0' :: '=' :: W)) := by
    have hsplit : out = ('8' :: '=' :: (bsL ++ [SOH])) ++
        '9' :: '=' :: (digits ++ SOH :: (body ++ '1' :: '0' :: '=' :: W)) := by
      rw [hout]; simp
    have hl : ('8' :: '=' :: (bsL ++ [SOH])).length = bsL.length + 3 := by simp
    rw [hsplit, ← hl, List.drop_left]
  have hsohOff : findSub [SOH] (out.drop (bsL.length + 3))
      = some (digits.length + 2) := by
    rw [hdrop3,
      show '9' :: '=' :: (digits ++ SOH :: (body ++ '1' :: '0' :: '=' :: W))
        = ('9' :: '=' :: digits) ++ SOH :: (body ++ '1' :: '0' :: '=' :: W) by simp,
      findSub_soh_exact _ _ (by
        intro hm
        rcases List.mem_cons.1 hm with hm | hm
        · exact absurd hm (by decide)
        rcases List.mem_cons.1 hm with hm | hm
        · exact absurd hm (by decide)
        · exact hdig hm)]
    simp
  have hckPos : findSub [SOH, '1', '0', '='] out
      = some (bsL.length + digits.length + 5 + body.length) := by
    rw [show out = ('8' :: '=' :: bsL) ++ SOH :: ('9' :: '=' ::
        (digits ++ SOH :: (body ++ '1' :: '0' :: '=' :: W))) by rw [hout]; simp,
      findSub_skip_soh_chunk _ _ _ (by
        intro hm
        rcases List.mem_cons.1 hm with hm | hm
        · exact absurd hm (by decide)
        rcases List.mem_cons.1 hm with hm | hm
        · exact absurd hm (by decide)
        · exact h1 hm),
      findSub_cons_of_not _ _ _ (by
        intro hp
        rw [List.isPrefixOf_cons₂, Bool.and_eq_true] at hp
        have := hp.2
        rw [List.isPrefixOf_cons₂, Bool.and_eq_true] at this
        exact absurd this.1 (by decide)),
      show '9' :: '=' :: (digits ++ SOH :: (body ++ '1' :: '0' :: '=' :: W))
        = ('9' :: '=' :: digits) ++ SOH :: (body ++ '1' :: '0' :: '=' :: W) by simp,
      findSub_skip_soh_chunk _ _ _ (by
        intro hm
        rcases List.mem_cons.1 hm with hm | hm
        · exact absurd hm (by decide)
        rcases List.mem_cons.1 hm with hm | hm
        · exact absurd hm (by decide)
        · exact hdig hm),
      findSub_cons_of_not _ _ _ (by
        intro hp
        rw [List.isPrefixOf_cons₂, Bool.and_eq_true] at hp
        have hq := hp.2
        rw [hbody, renderPairs_cons, renderField] at hq
        simp only [List.append_assoc, List.cons_append, List.nil_append] at hq
        exact not_prefix10_renderTag p.1 (ht p (List.mem_cons_self _ _)) _ hq),
      show body ++ '1' :: '0' :: '=' :: W
        = renderPairs (p :: fs') ++ '1' :: '0' :: '=' :: W by rw [hbody],
      findSub_pat10_fields (p :: fs') W (by simp) hv ht]
    rw [← hbody]
    simp only [Option.map_some', List.length_cons]
    congr 1
    omega
  constructor
  · rw [declaredBodyLength, hninePos]
    have hdrop5 : out.drop (bsL.length + 3 + 2)
        = digits ++ SOH :: (body ++ '1' :: '0' :: '=' :: W) := by
      have hsplit : out = ('8' :: '=' :: (bsL ++ [SOH, '9', '='])) ++
          (digits ++ SOH :: (body ++ '1' :: '0' :: '=' :: W)) := by
        rw [hout]; simp
      have hl : ('8' :: '=' :: (bsL ++ [SOH, '9', '='])).length
          = bsL.length + 3 + 2 := by simp
      rw [hsplit, ← hl, List.drop_left]
    simp only [Option.bind_eq_bind, Option.some_bind]
    rw [hdrop5, takeWhile_until_soh _ _ hdig, hdigits, natVal_natToChars]
    rfl
  · rw [bodySpanLength, hninePos]
    simp only [Option.bind_eq_bind, Option.some_bind]
    rw [hsohOff]
    simp only [Option.some_bind]
    rw [hckPos]
    simp only [Option.some_bind]
    congr 1
    omega

theorem encode_shape (bs mt : String) (ps : List (Nat × String)) :
    ∃ W, encode bs mt ps
      = '8' :: '=' :: (bs.toList ++ SOH :: '9' :: '=' ::
          (natToChars (encodeBody mt ps).length ++ SOH ::
            (encodeBody mt ps ++ '1' :: '0' :: '=' :: W))) := by
  refine ⟨pad3 (checksum (('8' :: '=' :: (bs.toList ++ SOH ::
    '9' :: '=' :: (natToChars (encodeBody mt ps).length ++ [SOH]))) ++
      encodeBody mt ps)) ++ [SOH], ?_⟩
  simp [encode, List.append_assoc]

theorem encodeBody_eq_renderPairs (mt : String) (ps : List (Nat × String)) :
    encodeBody mt ps = renderPairs ((35, mt) :: ps.filter
      (fun p => ¬ (p.1 = 8 ∨ p.1 = 9 ∨ p.1 = 10 ∨ p.1 = 35))) := by
  rw [encodeBody, renderPairs_cons]

/-- Every frame the modelled codec emits carries a BodyLength that both
parses back to and byte-counts to the body length. -/
theorem encode_bodyLength (bs mt : String) (ps : List (Nat × String))
    (hbs1 : SOH ∉ bs.toList) (hbs2 : '=' ∉ bs.toList) (hmt : SOH ∉ mt.toList)
    (hps : ∀ p ∈ ps, SOH ∉ p.2.toList) :
    declaredBodyLength (encode bs mt ps) = some (encodeBody mt ps).length
    ∧ bodySpanLength (encode bs mt ps) = some (encodeBody mt ps).length := by
  obtain ⟨W, hW⟩ := encode_shape bs mt ps
  rw [hW, encodeBody_eq_renderPairs]
  exact master_frame bs.toList _ W hbs1 hbs2 (by simp)
    (fun p hp => by
      rcases List.mem_cons.1 hp with hp | hp
      · rw [hp]; exact hmt
      · exact hps p (List.mem_filter.1 hp).1)
    (fun p hp => by
      rcases List.mem_cons.1 hp with hp | hp
      · rw [hp]; exact (by decide : (35 : Nat) ≠ 10)
      · have hf := (List.mem_filter.1 hp).2
        simp at hf
        exact hf.2.2.1)

theorem custom_filter_eq (ps : List (Nat × String)) (x : String) :
    ((ps.filter (fun p : Nat × String => ¬ p.1 = 9)) ++ [(9, x)]).filter
        (fun p : Nat × String => ¬ (p.1 = 8 ∨ p.1 = 9 ∨ p.1 = 10 ∨ p.1 = 35))
      = ps.filter (fun p => ¬ (p.1 = 8 ∨ p.1 = 9 ∨ p.1 = 10 ∨ p.1 = 35)) := by
  rw [List.filter_append, List.filter_filter]
  have h1 : List.filter (fun p : Nat × String =>
      ¬ (p.1 = 8 ∨ p.1 = 9 ∨ p.1 = 10 ∨ p.1 = 35)) [(9, x)] = [] := by simp
  rw [h1, List.append_nil]
  apply List.filter_congr
  intro a _
  by_cases h9 : a.1 = 9 <;> simp [h9]

/-- The recompute-and-re-encode dance of `send_custom_message` is a
no-op: the appended tag 9 is ignored by the codec, so the transmitted
frame equals a straight `encode` of the original pairs. -/
theorem send_custom_eq_encode (bs mt : String) (ps : List (Nat × String)) :
    send_custom_message_encoded bs mt ps = encode bs mt ps := by
  have hbody : ∀ x, encodeBody mt ((ps.filter (fun p => ¬ p.1 = 9)) ++ [(9, x)])
      = encodeBody mt ps := by
    intro x
    rw [encodeBody, encodeBody, custom_filter_eq]
  rw [send_custom_message_encoded]
  simp only [encode, hbody]

/-! ## Session-layer claims -/

/-- C1 counterexample: with an application message stored at sequence 3
and an inbound ResendRequest for 2..4 (scenario S3 of the spec), the
code's response is the single gap fill `34=2, 36=5` and retransmits no
stored bytes, while the walk the claim describes would emit
`34=2, 36=3`, the stored bytes for 3, and `34=4, 36=5`. -/
theorem C1_counterexample :
    (handle_resend_request (⟨4, 1, true, [(3, "NOS3")]⟩ : SessionState)
        (⟨"2", some 2, false, 2, 4, 0, false⟩ : InMsg)).2
      = [Event.sendGapFill 2 5]
    ∧ (((handle_resend_request (⟨4, 1, true, [(3, "NOS3")]⟩ : SessionState)
        (⟨"2", some 2, false, 2, 4, 0, false⟩ : InMsg)).2.all
          fun e => !e.isResendStored) = true)
    ∧ spec_resend_walk [(3, "NOS3")] 2 4
        = [Event.sendGapFill 2 3, Event.resendStored 3 "NOS3",
           Event.sendGapFill 4 5]
    ∧ (handle_resend_request (⟨4, 1, true, [(3, "NOS3")]⟩ : SessionState)
        (⟨"2", some 2, false, 2, 4, 0, false⟩ : InMsg)).2
      ≠ spec_resend_walk [(3, "NOS3")] 2 4 := by
  refine ⟨rfl, rfl, ?_, by decide⟩
  decide

/-- C1 (amended): for every inbound ResendRequest, the session emits
exactly one SequenceReset-GapFill `35=4, 34=BeginSeqNo, 123=Y, 43=Y`
whose `36` is `min(EndSeqNo-or-999999, seq) + 1`, leaves the session
state unchanged, and never retransmits stored application bytes,
whatever the store contains. -/
theorem C1_resend_single_gap_fill (st : SessionState) (m : InMsg) :
    handle_resend_request st m
      = (st, [Event.sendGapFill m.beginSeqNo
          (resend_actual_end m.endSeqNo st.seq + 1)])
    ∧ (((handle_resend_request st m).2.all fun e => !e.isResendStored) = true) := by
  exact ⟨rfl, rfl⟩

/-- C2 counterexample: a failed transmission (`sendall` raising) still
leaves the outbound counter advanced and persisted — the trace holds
the persistence and store events but no transport write, and
`seq` moved from 7 to 8. -/
theorem C2_counterexample :
    (send_app_message (⟨7, 1, true, []⟩ : SessionState) "D" "order" false).1.seq = 8
    ∧ (send_app_message (⟨7, 1, true, []⟩ : SessionState) "D" "order" false).2
      = [Event.save 8 1, Event.storePut 8] := by
  decide

/-- C2 (amended): for an outbound application message the store update
precedes the transport write (indices 1 < 2 of the effect trace), but
the outbound counter is advanced and persisted first (index 0), before
either, and it is advanced even when transmission fails. -/
theorem C2_store_before_send (st : SessionState) (mt b : String)
    (h : mt ∉ adminMsgTypes) :
    (send_app_message st mt b true).2.findIdx? Event.isSave = some 0
    ∧ (send_app_message st mt b true).2.findIdx? Event.isStorePut = some 1
    ∧ (send_app_message st mt b true).2.findIdx? Event.isSendBytes = some 2
    ∧ (send_app_message st mt b true).1.seq = st.seq + 1
    ∧ (send_app_message st mt b false).1.seq = st.seq + 1 := by
  simp only [send_app_message, construct_message, increment_seq, if_pos h]
  refine ⟨rfl, rfl, rfl, rfl, rfl⟩

/-- C2 witness: the amended statement evaluated for a NewOrderSingle
sent from a fresh session. -/
theorem C2_store_before_send_witness :
    (send_app_message (⟨0, 1, true, []⟩ : SessionState) "D" "x" true).2.findIdx?
        Event.isSave = some 0
    ∧ (send_app_message (⟨0, 1, true, []⟩ : SessionState) "D" "x" true).2.findIdx?
        Event.isStorePut = some 1
    ∧ (send_app_message (⟨0, 1, true, []⟩ : SessionState) "D" "x" true).2.findIdx?
        Event.isSendBytes = some 2
    ∧ (send_app_message (⟨0, 1, true, []⟩ : SessionState) "D" "x" true).1.seq = 0 + 1
    ∧ (send_app_message (⟨0, 1, true, []⟩ : SessionState) "D" "x" false).1.seq = 0 + 1 :=
  C2_store_before_send ⟨0, 1, true, []⟩ "D" "x" (by decide)

/-- C3 counterexample: an accepted inbound Heartbeat with `34 = 5` on a
session whose `next_in` is 5 leaves `next_in` at 5 — Heartbeats are
skipped by the sequence-number handling. -/
theorem C3_counterexample :
    (process_message (⟨0, 5, true, []⟩ : SessionState)
        (⟨"0", some 5, false, 0, 0, 0, false⟩ : InMsg)).1.expected_seq = 5
    ∧ (process_message (⟨0, 5, true, []⟩ : SessionState)
        (⟨"0", some 5, false, 0, 0, 0, false⟩ : InMsg)).1.expected_seq ≠ 5 + 1 := by
  decide

/-- C3 (amended): for an accepted inbound frame with `34 = N` on a
session whose `next_in` was `N`, `next_in` is `N + 1` after processing
for every message type except Heartbeat (which skips inbound sequence
handling entirely) and SequenceReset (whose handler overwrites
`next_in` with NewSeqNo), provided the frame does not carry
`43=Y` — except that a ResendRequest advances regardless of `43`. -/
theorem C3_next_in_advances (st : SessionState) (m : InMsg) (N : Nat)
    (_h1 : st.expected_seq = N) (h2 : m.seqNum = some N)
    (h3 : m.msgType ≠ "0") (h4 : m.msgType ≠ "4")
    (h5 : m.possDup = false ∨ m.msgType = "2") :
    (process_message st m).1.expected_seq = N + 1 := by
  by_cases h2' : m.msgType = "2"
  · simp [process_message, h2', h2, handle_resend_request, send_gap_fill]
  · rcases h5 with h5 | h5
    · by_cases h5' : m.msgType = "5" <;>
        simp [process_message, h3, h4, h2', h5', h2, h5]
    · exact absurd h5 h2'

/-- C3 witness: a NewOrderSingle at the expected sequence number
advances `next_in` from 5 to 6. -/
theorem C3_next_in_advances_witness :
    (process_message (⟨0, 5, true, []⟩ : SessionState)
        (⟨"D", some 5, false, 0, 0, 0, false⟩ : InMsg)).1.expected_seq = 5 + 1 :=
  C3_next_in_advances ⟨0, 5, true, []⟩ ⟨"D", some 5, false, 0, 0, 0, false⟩ 5
    rfl rfl (by decide) (by decide) (Or.inl rfl)

/-- C4 counterexample: an inbound ResendRequest carrying `43=Y` with
`34 = 2 < next_in = 9` rewrites `next_in` to 3 — the PossDup flag does
not suppress the ResendRequest branch of the sequence handling, and the
session state is not left unchanged. -/
theorem C4_counterexample :
    (process_message (⟨0, 9, true, []⟩ : SessionState)
        (⟨"2", some 2, true, 2, 0, 0, false⟩ : InMsg)).1.expected_seq = 3
    ∧ (process_message (⟨0, 9, true, []⟩ : SessionState)
        (⟨"2", some 2, true, 2, 0, 0, false⟩ : InMsg)).1
      ≠ (⟨0, 9, true, []⟩ : SessionState) := by
  decide

/-- C4 (amended): an inbound frame with `43=Y` leaves the session state
unchanged and produces no effect, for every message type other than
Heartbeat (which triggers a reply that increments the outbound
counter), ResendRequest (which sets `next_in` from tag 34 regardless of
`43`), SequenceReset (whose handler sets `next_in` from tag 36) and
Logout (which disconnects). -/
theorem C4_possdup_frames_ignored (st : SessionState) (m : InMsg)
    (h1 : m.possDup = true)
    (h2 : m.msgType ∉ (["0", "2", "4", "5"] : List String)) :
    process_message st m = (st, []) := by
  simp only [List.mem_cons, List.not_mem_nil, or_false, not_or] at h2
  obtain ⟨g0, g2, g4, g5⟩ := h2
  simp [process_message, g0, g2, g4, g5, h1]

/-- C4 witness: a possibly duplicated ExecutionReport below the
expected sequence number is ignored completely. -/
theorem C4_possdup_frames_ignored_witness :
    process_message (⟨0, 9, true, []⟩ : SessionState)
        (⟨"8", some 2, true, 0, 0, 0, false⟩ : InMsg)
      = ((⟨0, 9, true, []⟩ : SessionState), []) :=
  C4_possdup_frames_ignored ⟨0, 9, true, []⟩ ⟨"8", some 2, true, 0, 0, 0, false⟩
    rfl (by decide)

/-- C5 counterexample: an inbound SequenceReset-GapFill with
`36 = 3` on a session whose `next_in` is 5 lowers `next_in` to 3
(instead of keeping `max(5, 3) = 5`) and no Reject is transmitted. -/
theorem C5_counterexample :
    (process_message (⟨0, 5, true, []⟩ : SessionState)
        (⟨"4", some 4, true, 0, 0, 3, true⟩ : InMsg)).1.expected_seq = 3
    ∧ (((process_message (⟨0, 5, true, []⟩ : SessionState)
        (⟨"4", some 4, true, 0, 0, 3, true⟩ : InMsg)).2.all
          fun e => !e.isReject) = true) := by
  decide

/-- C5 (amended): an inbound SequenceReset (GapFill or not) sets
`next_in` unconditionally to NewSeqNo — so applying it twice still
yields NewSeqNo (idempotence holds), but a NewSeqNo below the current
`next_in` lowers it and no Reject is ever emitted. -/
theorem C5_sequence_reset_unconditional (st : SessionState) (m : InMsg)
    (h : m.msgType = "4") :
    (process_message st m).1.expected_seq = m.newSeqNo
    ∧ (process_message (process_message st m).1 m).1.expected_seq = m.newSeqNo
    ∧ (((process_message st m).2.all fun e => !e.isReject) = true) := by
  cases hd : m.possDup <;>
    simp [process_message, h, handle_sequence_reset, hd, Event.isReject]

/-- C5 witness: the gap-fill of the counterexample scenario, evaluated
through the amended statement. -/
theorem C5_sequence_reset_unconditional_witness :
    (process_message (⟨0, 5, true, []⟩ : SessionState)
        (⟨"4", some 4, true, 0, 0, 3, true⟩ : InMsg)).1.expected_seq = 3
    ∧ (process_message (process_message (⟨0, 5, true, []⟩ : SessionState)
        (⟨"4", some 4, true, 0, 0, 3, true⟩ : InMsg)).1
        (⟨"4", some 4, true, 0, 0, 3, true⟩ : InMsg)).1.expected_seq = 3
    ∧ (((process_message (⟨0, 5, true, []⟩ : SessionState)
        (⟨"4", some 4, true, 0, 0, 3, true⟩ : InMsg)).2.all
          fun e => !e.isReject) = true) :=
  C5_sequence_reset_unconditional ⟨0, 5, true, []⟩
    ⟨"4", some 4, true, 0, 0, 3, true⟩ rfl

/-- C6 counterexample: with `EndSeqNo = 0` and 1,000,000 messages
already sent, the code caps the served range at 999,999 — not at
`next_out − 1 = 1,000,000` as the infinity interpretation requires. -/
theorem C6_counterexample :
    resend_actual_end 0 1000000 = 999999
    ∧ claimed_actual_end 0 1000000 = 1000000
    ∧ resend_actual_end 0 1000000 ≠ claimed_actual_end 0 1000000
    ∧ (handle_resend_request (⟨1000000, 1, true, []⟩ : SessionState)
        (⟨"2", some 1, false, 1, 0, 0, false⟩ : InMsg)).2
      = [Event.sendGapFill 1 1000000] := by
  refine ⟨by decide, by decide, by decide, rfl⟩

/-- C6 (amended): `EndSeqNo = 0` is interpreted as the finite sentinel
999,999, the effective end of the served range is
`min(EndSeqNo-or-999999, seq)` where `seq = next_out − 1`, and the
served range never reaches past the last sent sequence number. -/
theorem C6_resend_end_capped (st : SessionState) (m : InMsg) :
    (handle_resend_request st m).2
      = [Event.sendGapFill m.beginSeqNo
          (resend_actual_end m.endSeqNo st.seq + 1)]
    ∧ resend_actual_end m.endSeqNo st.seq ≤ st.seq := by
  exact ⟨rfl, min_le_right _ _⟩

/-- C7 counterexample: a send against a stale handle — `logged_on` is
still true but the registry lookup finds no session — is rejected with
`(False, None)`, but it clears `logged_on` and `session_id` instead of
leaving the session state unaffected. -/
theorem C7_counterexample :
    (send_new_order_single (⟨some 1, true, true, 0⟩ : QfState)
        staleRegistry true).1 = (false, none)
    ∧ (send_new_order_single (⟨some 1, true, true, 0⟩ : QfState)
        staleRegistry true).2.logged_on = false
    ∧ (⟨some 1, true, true, 0⟩ : QfState).logged_on = true := by
  decide

/-- C7 (amended): a send with no session handle or while `logged_on` is
false returns `(False, None)` without an exception and leaves
`session_id`, `logged_on` and `running` unchanged (only the ClOrdID
counter may advance); a send against a stale handle (the registry
lookup finds no session) also returns `(False, None)` but clears
`logged_on` and `session_id` to force a reconnect. -/
theorem C7_not_logged_on_rejected (st : QfState)
    (lookup : Nat → LookupResult) (ok : Bool) :
    (st.logged_on = false ∨ st.session_id = none →
      (send_new_order_single st lookup ok).1 = (false, none)
      ∧ (send_new_order_single st lookup ok).2.logged_on = st.logged_on
      ∧ (send_new_order_single st lookup ok).2.session_id = st.session_id
      ∧ (send_new_order_single st lookup ok).2.running = st.running)
    ∧ (∀ sid, st.session_id = some sid → st.logged_on = true →
        st.running = true → lookup sid = LookupResult.found none →
        (send_new_order_single st lookup ok).1 = (false, none)
        ∧ (send_new_order_single st lookup ok).2.logged_on = false
        ∧ (send_new_order_single st lookup ok).2.session_id = none) := by
  constructor
  · intro h
    cases hs : st.session_id with
    | none => simp [send_new_order_single, hs]
    | some sid =>
      rcases h with h | h
      · simp [send_new_order_single, hs, generate_clordid, h]
      · exact absurd (hs ▸ h) (by simp)
  · intro sid hs hl hr hlk
    simp [send_new_order_single, hs, generate_clordid, hl, hr, hlk]

/-- C7 witness: both branches of the amended statement evaluated — a
send while logged off is cleanly rejected, and a send against a stale
handle is rejected while clearing the handle. -/
theorem C7_not_logged_on_rejected_witness :
    ((send_new_order_single (⟨some 1, false, true, 0⟩ : QfState)
        staleRegistry true).1 = (false, none)
      ∧ (send_new_order_single (⟨some 1, false, true, 0⟩ : QfState)
          staleRegistry true).2.logged_on
        = (⟨some 1, false, true, 0⟩ : QfState).logged_on
      ∧ (send_new_order_single (⟨some 1, false, true, 0⟩ : QfState)
          staleRegistry true).2.session_id
        = (⟨some 1, false, true, 0⟩ : QfState).session_id
      ∧ (send_new_order_single (⟨some 1, false, true, 0⟩ : QfState)
          staleRegistry true).2.running
        = (⟨some 1, false, true, 0⟩ : QfState).running)
    ∧ ((send_new_order_single (⟨some 1, true, true, 0⟩ : QfState)
          staleRegistry true).1 = (false, none)
      ∧ (send_new_order_single (⟨some 1, true, true, 0⟩ : QfState)
          staleRegistry true).2.logged_on = false
      ∧ (send_new_order_single (⟨some 1, true, true, 0⟩ : QfState)
          staleRegistry true).2.session_id = none) :=
  ⟨(C7_not_logged_on_rejected ⟨some 1, false, true, 0⟩ staleRegistry true).1
      (Or.inl rfl),
   (C7_not_logged_on_rejected ⟨some 1, true, true, 0⟩ staleRegistry true).2
      1 rfl rfl rfl rfl⟩

/-- C8: for every frame emitted by the custom-message send path —
which recomputes BodyLength by byte-searching after the initial
encoding — the declared BodyLength (tag 9) equals the exact count of
bytes from the byte after BodyLength's trailing SOH up to but not
including the '1' character of tag 10, for any begin string without
SOH or '=' and any caller pairs whose values contain no SOH. -/
theorem C8_body_length_matches (bs mt : String) (ps : List (Nat × String))
    (hbs1 : SOH ∉ bs.toList) (hbs2 : '=' ∉ bs.toList) (hmt : SOH ∉ mt.toList)
    (hps : ∀ p ∈ ps, SOH ∉ p.2.toList) :
    declaredBodyLength (send_custom_message_encoded bs mt ps)
      = bodySpanLength (send_custom_message_encoded bs mt ps)
    ∧ (bodySpanLength (send_custom_message_encoded bs mt ps)).isSome = true := by
  rw [send_custom_eq_encode]
  obtain ⟨hd, hs⟩ := encode_bodyLength bs mt ps hbs1 hbs2 hmt hps
  rw [hd, hs]
  exact ⟨rfl, rfl⟩

/-- C8 witness: the NewOrderSingle `35=D 55=IBM` sent through the
custom path under `FIX.4.2`: the frame is
`8=FIX.4.2|9=12|35=D|55=IBM|10=099|` and both counts are 12. -/
theorem C8_body_length_matches_witness :
    declaredBodyLength (send_custom_message_encoded "FIX.4.2" "D" [(55, "IBM")])
      = bodySpanLength (send_custom_message_encoded "FIX.4.2" "D" [(55, "IBM")])
    ∧ (bodySpanLength
        (send_custom_message_encoded "FIX.4.2" "D" [(55, "IBM")])).isSome
      = true :=
  C8_body_length_matches "FIX.4.2" "D" [(55, "IBM")] (by decide) (by decide)
    (by decide) (by intro p hp; simp at hp; rw [hp]; decide)

/-- C9 counterexample: a buffer received from the wire whose field
value contains a literal `'|'` byte (here `58=A|B`) has that byte
rewritten to SOH by `receive_messages` before parsing — it is not
preserved. -/
theorem C9_counterexample :
    receive_replace ['5', '8', '=', 'A', '|', 'B']
      = ['5', '8', '=', 'A', SOH, 'B']
    ∧ '|' ∉ receive_replace ['5', '8', '=', 'A', '|', 'B'] := by
  decide

/-- C9 (amended): `'|'` is treated as an alias for SOH not only at the
raw-message API boundary but also for every byte received from the
wire: `receive_messages` rewrites each `'|'` of a received buffer to
SOH before parsing (lengths and all other bytes are preserved), so a
literal `'|'` inside a received field value is converted into a
delimiter rather than kept. -/
theorem C9_pipe_rewritten_on_wire (resp : List Char) :
    '|' ∉ receive_replace resp
    ∧ (SOH ∈ receive_replace resp ↔ (SOH ∈ resp ∨ '|' ∈ resp))
    ∧ (receive_replace resp).length = resp.length
    ∧ ∀ c ∈ resp, c ≠ '|' → c ∈ receive_replace resp := by
  refine ⟨?_, ⟨?_, ?_⟩, by simp [receive_replace], ?_⟩
  · intro h
    rcases List.mem_map.1 h with ⟨c, hc, heq⟩
    by_cases hcp : c = '|'
    · rw [if_pos hcp] at heq
      exact absurd heq (by decide)
    · rw [if_neg hcp] at heq
      exact hcp heq
  · intro h
    rcases List.mem_map.1 h with ⟨c, hc, heq⟩
    by_cases hcp : c = '|'
    · exact Or.inr (hcp ▸ hc)
    · rw [if_neg hcp] at heq
      exact Or.inl (heq ▸ hc)
  · rintro (h | h)
    · exact List.mem_map.2 ⟨SOH, h, by simp [SOH]⟩
    · exact List.mem_map.2 ⟨'|', h, by simp⟩
  · intro c hmem hne
    exact List.mem_map.2 ⟨c, hmem, if_neg hne⟩

/-- C9 witness: the amended statement evaluated on the buffer `A|`:
the non-pipe byte survives the rewrite and the length is kept. -/
theorem C9_pipe_rewritten_on_wire_witness :
    ('A' ∈ receive_replace ['A', '|'])
    ∧ (receive_replace ['A', '|']).length = 2 :=
  ⟨(C9_pipe_rewritten_on_wire ['A', '|']).2.2.2 'A' (by decide) (by decide),
   (C9_pipe_rewritten_on_wire ['A', '|']).2.2.1⟩

/-- C10: every inbound Heartbeat is answered with an outbound Heartbeat
whose sequence number is the incremented and persisted outbound
counter, and no inbound sequence processing happens: `next_in` is
unchanged even when the Heartbeat's `34` equals `next_in`. -/
theorem C10_heartbeat_reply (st : SessionState) (m : InMsg)
    (h : m.msgType = "0") :
    process_message st m
      = ({ st with seq := st.seq + 1 },
         [Event.save (st.seq + 1) st.expected_seq,
          Event.sendHeartbeat (st.seq + 1)]) := by
  simp [process_message, h, send_heartbeat, increment_seq]

/-- C10 witness: a Heartbeat arriving exactly at the expected inbound
sequence number still leaves `next_in` at 7 while the outbound counter
moves from 3 to 4. -/
theorem C10_heartbeat_reply_witness :
    process_message (⟨3, 7, true, []⟩ : SessionState)
        (⟨"0", some 7, false, 0, 0, 0, false⟩ : InMsg)
      = ((⟨4, 7, true, []⟩ : SessionState),
         [Event.save 4 7, Event.sendHeartbeat 4]) :=
  C10_heartbeat_reply ⟨3, 7, true, []⟩ ⟨"0", some 7, false, 0, 0, 0, false⟩ rfl

end Senfix
